import Mathlib

/-!
Verification development for the `nuuid` crate (`src/lib.rs`): a shallow
embedding of its UUID byte model, bit-field codec, string codec, parser and
generators, with theorems checking the specification's claims.

Strings are modelled as lists of byte values (`List Nat`): Rust's `str` is
UTF-8 bytes, `s.len()` is the byte length and `s.is_ascii()` means every
byte is below 128.  Machine integers are modelled as `Nat` with explicit
`% 2^w` / masking where the source wraps or truncates.
-/

set_option maxRecDepth 4000

namespace Nuuid

/-- ASCII code of the lowercase hex digit with value `n < 16`
(mirrors Rust's `{:x}` formatting: `0`-`9` then `a`-`f`). -/
def hexDigitChar (n : Nat) : Nat :=
  if n < 10 then 48 + n else 87 + n

/-- Value of an ASCII hex digit, as accepted by Rust's
`from_str_radix(_, 16)` (via `char::to_digit(16)`): `0`-`9`, `a`-`f`,
`A`-`F`.  Returns `none` on any other byte. -/
def hexVal (c : Nat) : Option Nat :=
  if 48 ≤ c ∧ c ≤ 57 then some (c - 48)
  else if 97 ≤ c ∧ c ≤ 102 then some (c - 87)
  else if 65 ≤ c ∧ c ≤ 70 then some (c - 55)
  else none

/-- Whether a byte is an ASCII hexadecimal digit. -/
def isHexDigit (c : Nat) : Bool :=
  (hexVal c).isSome

/-- ASCII uppercasing of one byte (Rust's `make_ascii_uppercase`). -/
def asciiUpper (c : Nat) : Nat :=
  if 97 ≤ c ∧ c ≤ 122 then c - 32 else c

/-- Lowercase hex digits of `v`, most significant first, no leading zeros
(the digits Rust's `{:x}` emits before width padding); `[]` for `0`. -/
def hexDigits (v : Nat) : List Nat :=
  if h : v = 0 then []
  else hexDigits (v / 16) ++ [hexDigitChar (v % 16)]
decreasing_by exact Nat.div_lt_self (Nat.pos_of_ne_zero h) (by omega)

/-- Rust's `{:0w x}` formatting of `v`: hex digits left-padded with `0` to
at least width `w`. -/
def toHexPad (w v : Nat) : List Nat :=
  List.replicate (w - (hexDigits v).length) 48 ++ hexDigits v

/-- The digit-accumulation loop of Rust's `from_str_radix(_, 16)`:
most-significant-first fold, failing on any non-hex-digit byte. -/
def parseHexAcc : Nat → List Nat → Option Nat
  | a, [] => some a
  | a, c :: rest =>
    match hexVal c with
    | some d => parseHexAcc (a * 16 + d) rest
    | none => none

/-- The sign handling of Rust's `from_str_radix` for an unsigned type:
one optional leading `+` (byte 43) is stripped; `-` is not accepted. -/
def stripPlus (s : List Nat) : List Nat :=
  match s with
  | c :: rest => if c == 43 then rest else s
  | [] => s

/-- Rust's `uN::from_str_radix(s, 16)` for an unsigned type with exclusive
upper bound `bound` (`2^32`, `2^16` or `2^64` here): strips one optional
leading `+`, rejects an empty digit string, rejects non-hex-digit bytes,
and rejects values that would overflow the type. -/
def fromStrRadix16 (bound : Nat) (s : List Nat) : Option Nat :=
  if (stripPlus s).isEmpty then none
  else
    match parseHexAcc 0 (stripPlus s) with
    | some v => if v < bound then some v else none
    | none => none

/-- Rust's `str::is_ascii`: every byte below 128. -/
def isAscii (s : List Nat) : Bool :=
  s.all (fun c => c < 128)

/-- The byte slice `&s[a..b]`. -/
def slice (s : List Nat) (a b : Nat) : List Nat :=
  (s.drop a).take (b - a)

/-- UUID Variants (`enum Variant`). -/
inductive Variant
  | Ncs
  | Rfc4122
  | Microsoft
  | Reserved
deriving DecidableEq

/-- UUID Versions (`enum Version`), including the `experimental_uuid`
members `Database`, `UnixTime` and `Vendor`. -/
inductive Version
  | Nil
  | Time
  | Dce
  | Md5
  | Random
  | Sha1
  | Database
  | UnixTime
  | Vendor
deriving DecidableEq

/-- The numeric discriminant of `Version` (`ver as u8` in Rust). -/
def Version.toNat : Version → Nat
  | .Nil => 0
  | .Time => 1
  | .Dce => 2
  | .Md5 => 3
  | .Random => 4
  | .Sha1 => 5
  | .Database => 6
  | .UnixTime => 7
  | .Vendor => 8

/-- Number of defining tag bits of each variant's bit pattern
(`0xx` = 1 bit, `10x` = 2 bits, `110`/`111` = 3 bits). -/
def Variant.tagWidth : Variant → Nat
  | .Ncs => 1
  | .Rfc4122 => 2
  | .Microsoft => 3
  | .Reserved => 3

/-- `Uuid::variant` restricted to byte 8 (the source reads
`self.0[8]` and tests its three highest bits). -/
def variantOfByte (b : Nat) : Variant :=
  match (b >>> 7) &&& 1 == 1, (b >>> 6) &&& 1 == 1, (b >>> 5) &&& 1 == 1 with
  | true, true, true => Variant.Reserved
  | true, true, false => Variant.Microsoft
  | true, false, _ => Variant.Rfc4122
  | false, _, _ => Variant.Ncs

/-- `Uuid::version` restricted to byte 6 (the source reads `self.0[6]` and
tests its four highest bits); every pattern outside 0-5 falls to the
wildcard arm and yields `Nil` — including 6, 7 and 8. -/
def versionOfByte (b : Nat) : Version :=
  match (b >>> 7) &&& 1 == 1, (b >>> 6) &&& 1 == 1,
        (b >>> 5) &&& 1 == 1, (b >>> 4) &&& 1 == 1 with
  | false, false, false, false => Version.Nil
  | false, false, false, true => Version.Time
  | false, false, true, false => Version.Dce
  | false, false, true, true => Version.Md5
  | false, true, false, false => Version.Random
  | false, true, false, true => Version.Sha1
  | _, _, _, _ => Version.Nil

/-- `struct Uuid(Bytes)`: the 16 bytes, big-endian, index `i` of the Rust
array as field `b i`. -/
structure Uuid where
  b0 : Nat
  b1 : Nat
  b2 : Nat
  b3 : Nat
  b4 : Nat
  b5 : Nat
  b6 : Nat
  b7 : Nat
  b8 : Nat
  b9 : Nat
  b10 : Nat
  b11 : Nat
  b12 : Nat
  b13 : Nat
  b14 : Nat
  b15 : Nat
deriving DecidableEq

/-- Well-formedness of the model: every field is a byte (`u8`). -/
def Uuid.wf (u : Uuid) : Prop :=
  u.b0 < 256 ∧ u.b1 < 256 ∧ u.b2 < 256 ∧ u.b3 < 256 ∧
  u.b4 < 256 ∧ u.b5 < 256 ∧ u.b6 < 256 ∧ u.b7 < 256 ∧
  u.b8 < 256 ∧ u.b9 < 256 ∧ u.b10 < 256 ∧ u.b11 < 256 ∧
  u.b12 < 256 ∧ u.b13 < 256 ∧ u.b14 < 256 ∧ u.b15 < 256

instance (u : Uuid) : Decidable u.wf := by
  unfold Uuid.wf; infer_instance

/-- `Uuid::to_bytes`: the 16 bytes in order. -/
def Uuid.to_bytes (u : Uuid) : List Nat :=
  [u.b0, u.b1, u.b2, u.b3, u.b4, u.b5, u.b6, u.b7,
   u.b8, u.b9, u.b10, u.b11, u.b12, u.b13, u.b14, u.b15]

/-- `Uuid::from_bytes` on a 16-byte list. -/
def Uuid.from_bytes (b : List Nat) : Uuid :=
  ⟨b.getD 0 0, b.getD 1 0, b.getD 2 0, b.getD 3 0,
   b.getD 4 0, b.getD 5 0, b.getD 6 0, b.getD 7 0,
   b.getD 8 0, b.getD 9 0, b.getD 10 0, b.getD 11 0,
   b.getD 12 0, b.getD 13 0, b.getD 14 0, b.getD 15 0⟩

/-- `Uuid::nil`: all bytes zero. -/
def Uuid.nil : Uuid :=
  ⟨0, 0, 0, 0, 0, 0, 0, 0, 0, 0, 0, 0, 0, 0, 0, 0⟩

/-- `Uuid::max` exactly as the source writes it: `Uuid([1; 16])`, i.e.
sixteen bytes each equal to `1` (not `0xFF`). -/
def Uuid.max : Uuid :=
  ⟨1, 1, 1, 1, 1, 1, 1, 1, 1, 1, 1, 1, 1, 1, 1, 1⟩

/-- `Uuid::set_version`: `self.0[6] = (self.0[6] & 0xF) | ((ver as u8) << 4)`. -/
def Uuid.set_version (u : Uuid) (ver : Version) : Uuid :=
  { u with b6 := (u.b6 &&& 0xF) ||| (ver.toNat <<< 4) }

/-- The byte-8 rewrite of `Uuid::set_variant`: one fixed bit-mask per
target variant (`0xx`, `10x`, `110`, `111`). -/
def setVariantByte (ver : Variant) (b : Nat) : Nat :=
  match ver with
  | Variant.Ncs => b &&& 0x7F
  | Variant.Rfc4122 => (b &&& 0x3F) ||| 0x80
  | Variant.Microsoft => (b &&& 0x1F) ||| 0xC0
  | Variant.Reserved => b ||| 0xE0

/-- `Uuid::set_variant`: rewrites byte 8 with the variant's fixed mask. -/
def Uuid.set_variant (u : Uuid) (ver : Variant) : Uuid :=
  { u with b8 := setVariantByte ver u.b8 }

/-- `Uuid::swap_endian`: reverse bytes 0-3, swap bytes 4/5 and 6/7,
leave bytes 8-15 unchanged. -/
def Uuid.swap_endian (u : Uuid) : Uuid :=
  { u with b0 := u.b3, b1 := u.b2, b2 := u.b1, b3 := u.b0,
           b4 := u.b5, b5 := u.b4, b6 := u.b7, b7 := u.b6 }

/-- `Uuid::from_bytes_me`: `Self(bytes).swap_endian()`. -/
def Uuid.from_bytes_me (b : List Nat) : Uuid :=
  (Uuid.from_bytes b).swap_endian

/-- `Uuid::to_bytes_me`: `self.swap_endian().to_bytes()`. -/
def Uuid.to_bytes_me (u : Uuid) : List Nat :=
  u.swap_endian.to_bytes

/-- `Uuid::variant`. -/
def Uuid.variant (u : Uuid) : Variant :=
  variantOfByte u.b8

/-- `Uuid::version`. -/
def Uuid.version (u : Uuid) : Version :=
  versionOfByte u.b6

/-- `Uuid::timestamp`: `u64::from_be_bytes` of
`[b6 & 0xF, b7, b4, b5, b0, b1, b2, b3]`. -/
def Uuid.timestamp (u : Uuid) : Nat :=
  (u.b6 &&& 0xF) * 2 ^ 56 + u.b7 * 2 ^ 48 + u.b4 * 2 ^ 40 + u.b5 * 2 ^ 32 +
    u.b0 * 2 ^ 24 + u.b1 * 2 ^ 16 + u.b2 * 2 ^ 8 + u.b3

/-- `Uuid::clock_sequence`: `u16::from_be_bytes [b8 & 0x3F, b9]`. -/
def Uuid.clock_sequence (u : Uuid) : Nat :=
  (u.b8 &&& 0x3F) * 2 ^ 8 + u.b9

/-- `Uuid::to_str`: the 36-byte lowercase hyphenated rendering
`{:08x}-{:04x}-{:04x}-{:02x}{:02x}-{:012x}` of `time_low`, `time_mid`,
`time_hi_and_version`, `clock_seq_hi_and_reserved`/`clock_seq_low` and
`node`, each field read big-endian from the bytes. -/
def Uuid.to_str (u : Uuid) : List Nat :=
  toHexPad 8 (u.b0 * 2 ^ 24 + u.b1 * 2 ^ 16 + u.b2 * 2 ^ 8 + u.b3) ++ [45] ++
  toHexPad 4 (u.b4 * 2 ^ 8 + u.b5) ++ [45] ++
  toHexPad 4 (u.b6 * 2 ^ 8 + u.b7) ++ [45] ++
  (toHexPad 2 u.b8 ++ toHexPad 2 u.b9) ++ [45] ++
  toHexPad 12 (u.b10 * 2 ^ 40 + u.b11 * 2 ^ 32 + u.b12 * 2 ^ 24 +
    u.b13 * 2 ^ 16 + u.b14 * 2 ^ 8 + u.b15)

/-- The bytes of the fixed prefix `urn:uuid:`. -/
def urnBytes : List Nat :=
  [117, 114, 110, 58, 117, 117, 105, 100, 58]

/-- `Uuid::to_urn`: the prefix `urn:uuid:` followed by `to_str`. -/
def Uuid.to_urn (u : Uuid) : List Nat :=
  urnBytes ++ u.to_str

/-- `Uuid::to_str_upper`: `to_str` then `make_ascii_uppercase` on all of it. -/
def Uuid.to_str_upper (u : Uuid) : List Nat :=
  (u.to_str).map asciiUpper

/-- `Uuid::to_urn_upper`: uppercases only the part after the prefix. -/
def Uuid.to_urn_upper (u : Uuid) : List Nat :=
  urnBytes ++ (u.to_str).map asciiUpper

/-- Modelled from the spec: the source has no braced formatter (only
`to_str`/`to_urn` and their uppercase variants exist); section 4.3 of the
spec describes the 38-character braced form as `{` then the hyphenated
rendering then `}`. -/
def Uuid.to_braced (u : Uuid) : List Nat :=
  [123] ++ u.to_str ++ [125]

/-- Modelled from the spec: uppercase braced form, uppercasing only the
hex digits, never the fixed punctuation (spec section 4.3). -/
def Uuid.to_braced_upper (u : Uuid) : List Nat :=
  [123] ++ (u.to_str).map asciiUpper ++ [125]

/-- Modelled from the spec: the source has no simple formatter; the spec's
glossary defines the simple form as the 32-character hex rendering with no
hyphens, i.e. the five hex groups concatenated. -/
def Uuid.to_simple (u : Uuid) : List Nat :=
  toHexPad 8 (u.b0 * 2 ^ 24 + u.b1 * 2 ^ 16 + u.b2 * 2 ^ 8 + u.b3) ++
  toHexPad 4 (u.b4 * 2 ^ 8 + u.b5) ++
  toHexPad 4 (u.b6 * 2 ^ 8 + u.b7) ++
  (toHexPad 2 u.b8 ++ toHexPad 2 u.b9) ++
  toHexPad 12 (u.b10 * 2 ^ 40 + u.b11 * 2 ^ 32 + u.b12 * 2 ^ 24 +
    u.b13 * 2 ^ 16 + u.b14 * 2 ^ 8 + u.b15)

/-- Modelled from the spec: uppercase simple form. -/
def Uuid.to_simple_upper (u : Uuid) : List Nat :=
  (u.to_simple).map asciiUpper

/-- `Uuid::new_v1`: packs the 60-bit timestamp, 14-bit counter and 6 node
bytes, writing the version nibble `0001` and variant bits `10` inline;
`timestamp.to_be_bytes()[i]` is `t / 2^(8*(7-i)) % 256`. -/
def Uuid.new_v1 (t c n0 n1 n2 n3 n4 n5 : Nat) : Uuid :=
  ⟨t / 2 ^ 24 % 256, t / 2 ^ 16 % 256, t / 2 ^ 8 % 256, t % 256,
   t / 2 ^ 40 % 256, t / 2 ^ 32 % 256,
   (t / 2 ^ 56 % 256 &&& 0xF) ||| (1 <<< 4), t / 2 ^ 48 % 256,
   (c / 2 ^ 8 % 256 &&& 0x3F) ||| 0x80, c % 256,
   n0, n1, n2, n3, n4, n5⟩

/-- `Uuid::new_v3` with the MD5 digest of `namespace ++ name` supplied as
the opaque 16-byte value `digest` (the spec treats the hash as an external
opaque `bytes -> digest` collaborator): stamp version then variant. -/
def Uuid.new_v3_of (digest : Uuid) : Uuid :=
  (digest.set_version Version.Md5).set_variant Variant.Rfc4122

/-- `Uuid::new_v4` / `Uuid::new_v4_rng` with the 16 random bytes supplied
as the opaque value `r` (the RNG is an external opaque byte source):
stamp variant then version. -/
def Uuid.new_v4_of (r : Uuid) : Uuid :=
  (r.set_variant Variant.Rfc4122).set_version Version.Random

/-- `Uuid::new_v5` with the first 16 SHA-1 digest bytes supplied as the
opaque value `digest`: stamp version then variant. -/
def Uuid.new_v5_of (digest : Uuid) : Uuid :=
  (digest.set_version Version.Sha1).set_variant Variant.Rfc4122

/-- `Uuid::new_v8`: caller-supplied payload, stamp variant then version
(`Version::Vendor`, discriminant 8). -/
def Uuid.new_v8 (bytes : Uuid) : Uuid :=
  (bytes.set_variant Variant.Rfc4122).set_version Version.Vendor

/-- Reassembly of the parsed fields into the 16 bytes: `to_be_bytes` of
the `u32`/`u16`/`u16`/`u16` fields, plus `to_be_bytes()[2..]` of the
`u64` node field. -/
def ofFields (v1 v2 v3 v4 v5 : Nat) : Uuid :=
  ⟨v1 / 2 ^ 24 % 256, v1 / 2 ^ 16 % 256, v1 / 2 ^ 8 % 256, v1 % 256,
   v2 / 2 ^ 8 % 256, v2 % 256,
   v3 / 2 ^ 8 % 256, v3 % 256,
   v4 / 2 ^ 8 % 256, v4 % 256,
   v5 / 2 ^ 40 % 256, v5 / 2 ^ 32 % 256, v5 / 2 ^ 24 % 256,
   v5 / 2 ^ 16 % 256, v5 / 2 ^ 8 % 256, v5 % 256⟩

/-- The five field parses of `from_str` after shape normalization:
`u32`, three `u16`s and the `u64` node, all radix 16. -/
def parseFields (a b c d e : List Nat) : Option Uuid :=
  match fromStrRadix16 (2 ^ 32) a, fromStrRadix16 (2 ^ 16) b,
        fromStrRadix16 (2 ^ 16) c, fromStrRadix16 (2 ^ 16) d,
        fromStrRadix16 (2 ^ 64) e with
  | some v1, some v2, some v3, some v4, some v5 =>
    some (ofFields v1 v2 v3 v4 v5)
  | _, _, _, _, _ => none

/-- The group extraction of `from_str`: fixed offsets, differing between
the hyphenated layout (`offset = false`) and the simple layout
(`offset = true`), exactly the `indexes` table of the source. -/
def groupsCore (s : List Nat) (offset : Bool) : List (List Nat) :=
  if !offset then
    [slice s 0 8, slice s 9 13, slice s 14 18, slice s 19 23, s.drop 24]
  else
    [slice s 0 8, slice s 8 12, slice s 12 16, slice s 16 20, s.drop 20]

/-- The body of `from_str` after shape normalization: extract the five
groups at the layout's offsets and parse them. -/
def parseCore (s : List Nat) (offset : Bool) : Option Uuid :=
  if !offset then
    parseFields (slice s 0 8) (slice s 9 13) (slice s 14 18)
      (slice s 19 23) (s.drop 24)
  else
    parseFields (slice s 0 8) (slice s 8 12) (slice s 12 16)
      (slice s 16 20) (s.drop 20)

/-- `<Uuid as FromStr>::from_str`: bounds and ASCII check, then shape
normalization by total length alone — URN drops the first 9 bytes, braced
drops the first and last byte — then the five fixed-offset group parses. -/
def Uuid.from_str (s : List Nat) : Option Uuid :=
  if s.length > 45 || s.length < 32 || !(isAscii s) then none
  else if s.length = 45 then parseCore (s.drop 9) false
  else if s.length = 38 then parseCore ((s.drop 1).take (s.length - 2)) false
  else if s.length = 36 then parseCore s false
  else if s.length = 32 then parseCore s true
  else none

/-- `Uuid::parse` forwards to `from_str`. -/
def Uuid.parse (s : List Nat) : Option Uuid :=
  Uuid.from_str s

/-- `Uuid::parse_me`: `from_str` then `swap_endian` on success. -/
def Uuid.parse_me (s : List Nat) : Option Uuid :=
  (Uuid.from_str s).map Uuid.swap_endian

/-- The five hex groups `from_str` extracts from an accepted-length input,
for stating claims about group contents (mirrors `from_str` exactly). -/
def extractedGroups (s : List Nat) : List (List Nat) :=
  if s.length = 45 then groupsCore (s.drop 9) false
  else if s.length = 38 then groupsCore ((s.drop 1).take (s.length - 2)) false
  else if s.length = 36 then groupsCore s false
  else if s.length = 32 then groupsCore s true
  else []

/-- The 36-byte input `+62aa7c7-7598-4d56-8bcc-a72c30f998a2`: its first
hex group starts with `+`, which is not a hex digit. -/
def plusInput : List Nat :=
  [43, 54, 50, 97, 97, 55, 99, 55, 45, 55, 53, 57, 56, 45, 52, 100, 53, 54, 45, 56, 98, 99, 99, 45, 97, 55, 50, 99, 51, 48, 102, 57, 57, 56, 97, 50]

/-- The 38-byte input `[662aa7c7-7598-4d56-8bcc-a72c30f998a2]`: bracketed,
not braced. -/
def bracketInput : List Nat :=
  [91, 54, 54, 50, 97, 97, 55, 99, 55, 45, 55, 53, 57, 56, 45, 52, 100, 53, 54, 45, 56, 98, 99, 99, 45, 97, 55, 50, 99, 51, 48, 102, 57, 57, 56, 97, 50, 93]

/-- The 36-byte input `g62aa7c7-7598-4d56-8bcc-a72c30f998a2`: its first
hex group contains `g`. -/
def gInput : List Nat :=
  [103, 54, 50, 97, 97, 55, 99, 55, 45, 55, 53, 57, 56, 45, 52, 100, 53, 54, 45, 56, 98, 99, 99, 45, 97, 55, 50, 99, 51, 48, 102, 57, 57, 56, 97, 50]

/-- The 36-byte string `00000000-0000-0000-0000-000000000000`. -/
def zeroHyph : List Nat :=
  [48, 48, 48, 48, 48, 48, 48, 48, 45, 48, 48, 48, 48, 45, 48, 48, 48, 48, 45, 48, 48, 48, 48, 45, 48, 48, 48, 48, 48, 48, 48, 48, 48, 48, 48, 48]

/-! ## Hex digit and hex string lemmas -/

theorem hexVal_hexDigitChar : ∀ d, d < 16 → hexVal (hexDigitChar d) = some d := by
  decide

theorem isHexDigit_lt {c : Nat} (h : isHexDigit c = true) : c < 128 := by
  unfold isHexDigit hexVal at h
  split_ifs at h with h1 h2 h3
  · omega
  · omega
  · omega
  · simp at h

theorem hexDigits_length_le : ∀ (w v : Nat), v < 16 ^ w → (hexDigits v).length ≤ w := by
  intro w
  induction w with
  | zero =>
    intro v hv
    have hv0 : v = 0 := by simpa using hv
    subst hv0
    rw [hexDigits]
    simp
  | succ w ih =>
    intro v hv
    by_cases h : v = 0
    · subst h
      rw [hexDigits]
      simp
    · rw [hexDigits, dif_neg h]
      have hlt : v / 16 < 16 ^ w := by
        rw [Nat.div_lt_iff_lt_mul (by omega)]
        calc v < 16 ^ (w + 1) := hv
          _ = 16 ^ w * 16 := by rw [pow_succ]
      have := ih (v / 16) hlt
      simp only [List.length_append, List.length_cons, List.length_nil]
      omega

theorem toHexPad_length (w v : Nat) (h : v < 16 ^ w) :
    (toHexPad w v).length = w := by
  unfold toHexPad
  rw [List.length_append, List.length_replicate]
  have := hexDigits_length_le w v h
  omega

theorem isHexDigit_mem_hexDigits (v : Nat) : ∀ c ∈ hexDigits v, isHexDigit c = true := by
  induction v using Nat.strong_induction_on with
  | _ v ih =>
    intro c hc
    by_cases h : v = 0
    · subst h
      rw [hexDigits] at hc
      simp at hc
    · rw [hexDigits, dif_neg h] at hc
      rcases List.mem_append.mp hc with h1 | h1
      · exact ih (v / 16) (Nat.div_lt_self (Nat.pos_of_ne_zero h) (by omega)) c h1
      · have hcv : c = hexDigitChar (v % 16) := by simpa using h1
        subst hcv
        exact (by decide : ∀ d, d < 16 → isHexDigit (hexDigitChar d) = true) _
          (Nat.mod_lt _ (by omega))

theorem isHexDigit_mem_toHexPad (w v : Nat) : ∀ c ∈ toHexPad w v, isHexDigit c = true := by
  intro c hc
  unfold toHexPad at hc
  rcases List.mem_append.mp hc with h1 | h1
  · have hc48 : c = 48 := List.eq_of_mem_replicate h1
    subst hc48
    decide
  · exact isHexDigit_mem_hexDigits v c h1

theorem parseHexAcc_append_some {xs : List Nat} {a b : Nat} (ys : List Nat)
    (h : parseHexAcc a xs = some b) :
    parseHexAcc a (xs ++ ys) = parseHexAcc b ys := by
  induction xs generalizing a with
  | nil =>
    simp only [parseHexAcc] at h
    cases h
    rfl
  | cons c rest ih =>
    rcases hc : hexVal c with _ | d
    · simp only [parseHexAcc, hc] at h
      exact Option.noConfusion h
    · simp only [parseHexAcc, hc] at h ⊢
      exact ih h

theorem parseHexAcc_none_of_mem {l : List Nat} {c : Nat} (hc : c ∈ l)
    (hbad : isHexDigit c = false) : ∀ a, parseHexAcc a l = none := by
  induction l with
  | nil => simp at hc
  | cons x rest ih =>
    intro a
    rcases List.mem_cons.mp hc with h | h
    · subst h
      rcases h' : hexVal c with _ | d
      · simp only [parseHexAcc, h']
      · exfalso
        unfold isHexDigit at hbad
        rw [h'] at hbad
        simp at hbad
    · rcases hx : hexVal x with _ | d
      · simp only [parseHexAcc, hx]
      · simp only [parseHexAcc, hx]
        exact ih h _

theorem hex_step (a L v : Nat) :
    (a * 16 ^ L + v / 16) * 16 + v % 16 = a * 16 ^ (L + 1) + v := by
  rw [pow_succ]
  calc (a * 16 ^ L + v / 16) * 16 + v % 16
      = a * (16 ^ L * 16) + (v / 16 * 16 + v % 16) := by ring
    _ = a * (16 ^ L * 16) + v := by
        congr 1
        omega

theorem parseHexAcc_hexDigits (v : Nat) : ∀ a,
    parseHexAcc a (hexDigits v) =
      some (a * 16 ^ (hexDigits v).length + v) := by
  induction v using Nat.strong_induction_on with
  | _ v ih =>
    intro a
    by_cases h : v = 0
    · subst h
      rw [hexDigits]
      simp [parseHexAcc]
    · conv_lhs => rw [hexDigits, dif_neg h]
      rw [parseHexAcc_append_some _
        (ih (v / 16) (Nat.div_lt_self (Nat.pos_of_ne_zero h) (by omega)) a)]
      have hd : hexVal (hexDigitChar (v % 16)) = some (v % 16) :=
        hexVal_hexDigitChar _ (Nat.mod_lt _ (by omega))
      simp only [parseHexAcc, hd]
      conv_rhs => rw [hexDigits, dif_neg h]
      rw [List.length_append, List.length_cons, List.length_nil]
      exact congrArg some (hex_step a _ v)

theorem parseHexAcc_zeros : ∀ (k a : Nat),
    parseHexAcc a (List.replicate k 48) = some (a * 16 ^ k) := by
  intro k
  induction k with
  | zero =>
    intro a
    simp [parseHexAcc]
  | succ k ih =>
    intro a
    rw [List.replicate_succ]
    have h48 : hexVal 48 = some 0 := by decide
    simp only [parseHexAcc, h48]
    rw [ih (a * 16 + 0)]
    congr 1
    ring

theorem parseHexAcc_toHexPad (w v a : Nat) (h : v < 16 ^ w) :
    parseHexAcc a (toHexPad w v) = some (a * 16 ^ w + v) := by
  unfold toHexPad
  rw [parseHexAcc_append_some _ (parseHexAcc_zeros _ a),
    parseHexAcc_hexDigits]
  congr 1
  have hL := hexDigits_length_le w v h
  rw [mul_assoc, ← pow_add]
  have hwl : w - (hexDigits v).length + (hexDigits v).length = w := by omega
  rw [hwl]

theorem fromStrRadix16_eq (bound : Nat) (l : List Nat) (hne : l ≠ [])
    (hhex : ∀ c ∈ l, isHexDigit c = true) :
    fromStrRadix16 bound l =
      match parseHexAcc 0 l with
      | some v => if v < bound then some v else none
      | none => none := by
  rcases l with _ | ⟨c, rest⟩
  · exact absurd rfl hne
  · have hc : isHexDigit c = true := hhex c (by simp)
    have h43 : (c == 43) = false := by
      have hne43 : c ≠ 43 := by
        intro h
        subst h
        exact absurd hc (by decide)
      simpa using hne43
    simp only [fromStrRadix16, stripPlus, h43, Bool.false_eq_true, if_false,
      List.isEmpty_cons]

theorem fromStrRadix16_toHexPad (bound w v : Nat) (hw : 0 < w)
    (hv : v < 16 ^ w) (hb : v < bound) :
    fromStrRadix16 bound (toHexPad w v) = some v := by
  have hne : toHexPad w v ≠ [] := by
    intro h
    have hl := toHexPad_length w v hv
    rw [h] at hl
    simp at hl
    omega
  rw [fromStrRadix16_eq bound _ hne (isHexDigit_mem_toHexPad w v),
    parseHexAcc_toHexPad w v 0 hv]
  simp [hb]

theorem fromStrRadix16_pad2pair (bound x y : Nat) (hx : x < 256)
    (hy : y < 256) (hb : x * 256 + y < bound) :
    fromStrRadix16 bound (toHexPad 2 x ++ toHexPad 2 y) =
      some (x * 256 + y) := by
  have hx16 : x < 16 ^ 2 := by norm_num; omega
  have hy16 : y < 16 ^ 2 := by norm_num; omega
  have hne : toHexPad 2 x ++ toHexPad 2 y ≠ [] := by
    intro h
    have hl : (toHexPad 2 x ++ toHexPad 2 y).length = 4 := by
      rw [List.length_append, toHexPad_length 2 x hx16,
        toHexPad_length 2 y hy16]
    rw [h] at hl
    simp at hl
  have hhex : ∀ c ∈ toHexPad 2 x ++ toHexPad 2 y, isHexDigit c = true := by
    intro c hc
    rcases List.mem_append.mp hc with h | h
    · exact isHexDigit_mem_toHexPad 2 x c h
    · exact isHexDigit_mem_toHexPad 2 y c h
  rw [fromStrRadix16_eq bound _ hne hhex,
    parseHexAcc_append_some _ (parseHexAcc_toHexPad 2 x 0 hx16),
    parseHexAcc_toHexPad 2 y _ hy16]
  have harith : (0 * 16 ^ 2 + x) * 16 ^ 2 + y = x * 256 + y := by ring_nf
  rw [harith]
  simp [hb]

/-! ## Uppercasing lemmas -/

theorem asciiUpper_hex {c : Nat} (h : isHexDigit c = true) :
    hexVal (asciiUpper c) = hexVal c ∧ isHexDigit (asciiUpper c) = true ∧
      asciiUpper c ≠ 43 := by
  have hlt : c < 128 := isHexDigit_lt h
  revert h
  revert hlt
  revert c
  exact (by decide :
    ∀ c, c < 128 → isHexDigit c = true →
      hexVal (asciiUpper c) = hexVal c ∧ isHexDigit (asciiUpper c) = true ∧
        asciiUpper c ≠ 43)

theorem asciiUpper_lt {c : Nat} (h : c < 128) : asciiUpper c < 128 := by
  unfold asciiUpper
  split_ifs <;> omega

theorem parseHexAcc_map_upper {l : List Nat}
    (hl : ∀ c ∈ l, isHexDigit c = true) : ∀ a,
    parseHexAcc a (l.map asciiUpper) = parseHexAcc a l := by
  induction l with
  | nil => intro a; rfl
  | cons c rest ih =>
    intro a
    have hc := hl c (by simp)
    have hup := (asciiUpper_hex hc).1
    simp only [List.map_cons, parseHexAcc, hup]
    rcases hv : hexVal c with _ | d
    · rfl
    · exact ih (fun x hx => hl x (by simp [hx])) _

theorem fromStrRadix16_map_upper (bound : Nat) {l : List Nat} (hne : l ≠ [])
    (hl : ∀ c ∈ l, isHexDigit c = true) :
    fromStrRadix16 bound (l.map asciiUpper) = fromStrRadix16 bound l := by
  have hne' : l.map asciiUpper ≠ [] := by
    intro h
    exact hne (List.map_eq_nil_iff.mp h)
  have hl' : ∀ c ∈ l.map asciiUpper, isHexDigit c = true := by
    intro c hc
    rcases List.mem_map.mp hc with ⟨x, hx, rfl⟩
    exact (asciiUpper_hex (hl x hx)).2.1
  rw [fromStrRadix16_eq bound _ hne' hl', fromStrRadix16_eq bound _ hne hl,
    parseHexAcc_map_upper hl]

/-! ## List slicing lemmas -/

theorem take_append_len' (p q : List Nat) (n : Nat) (h : p.length = n) :
    (p ++ q).take n = p := by
  subst h
  exact List.take_left p q

theorem drop_append_len' (p q : List Nat) (n : Nat) (h : p.length = n) :
    (p ++ q).drop n = q := by
  subst h
  exact List.drop_left p q

theorem parseCore_hyph (a b c d1 d2 e : List Nat)
    (ha : a.length = 8) (hb : b.length = 4) (hc : c.length = 4)
    (hd1 : d1.length = 2) (hd2 : d2.length = 2) :
    parseCore (a ++ ([45] ++ (b ++ ([45] ++ (c ++ ([45] ++
      (d1 ++ (d2 ++ ([45] ++ e))))))))) false =
      parseFields a b c (d1 ++ d2) e := by
  set s := a ++ ([45] ++ (b ++ ([45] ++ (c ++ ([45] ++
    (d1 ++ (d2 ++ ([45] ++ e)))))))) with hs
  have h9 : s.drop 9 =
      b ++ ([45] ++ (c ++ ([45] ++ (d1 ++ (d2 ++ ([45] ++ e)))))) := by
    rw [hs, ← List.append_assoc a [45]]
    exact drop_append_len' _ _ 9 (by simp [ha])
  have h14 : s.drop 14 = c ++ ([45] ++ (d1 ++ (d2 ++ ([45] ++ e)))) := by
    rw [show (14 : Nat) = 9 + 5 from rfl, ← List.drop_drop, h9,
      ← List.append_assoc b [45]]
    exact drop_append_len' _ _ 5 (by simp [hb])
  have h19 : s.drop 19 = d1 ++ (d2 ++ ([45] ++ e)) := by
    rw [show (19 : Nat) = 14 + 5 from rfl, ← List.drop_drop, h14,
      ← List.append_assoc c [45]]
    exact drop_append_len' _ _ 5 (by simp [hc])
  have h24 : s.drop 24 = e := by
    rw [show (24 : Nat) = 19 + 5 from rfl, ← List.drop_drop, h19,
      ← List.append_assoc, ← List.append_assoc]
    exact drop_append_len' _ _ 5 (by simp [hd1, hd2])
  have g1 : slice s 0 8 = a := by
    rw [show slice s 0 8 = (s.drop 0).take 8 from rfl, List.drop_zero, hs]
    exact take_append_len' _ _ 8 ha
  have g2 : slice s 9 13 = b := by
    rw [show slice s 9 13 = (s.drop 9).take 4 from rfl, h9]
    exact take_append_len' _ _ 4 hb
  have g3 : slice s 14 18 = c := by
    rw [show slice s 14 18 = (s.drop 14).take 4 from rfl, h14]
    exact take_append_len' _ _ 4 hc
  have g4 : slice s 19 23 = d1 ++ d2 := by
    rw [show slice s 19 23 = (s.drop 19).take 4 from rfl, h19,
      ← List.append_assoc]
    exact take_append_len' _ _ 4 (by simp [hd1, hd2])
  show parseFields (slice s 0 8) (slice s 9 13) (slice s 14 18)
    (slice s 19 23) (s.drop 24) = parseFields a b c (d1 ++ d2) e
  rw [g1, g2, g3, g4, h24]

theorem parseCore_simple (a b c d1 d2 e : List Nat)
    (ha : a.length = 8) (hb : b.length = 4) (hc : c.length = 4)
    (hd1 : d1.length = 2) (hd2 : d2.length = 2) :
    parseCore (a ++ (b ++ (c ++ (d1 ++ (d2 ++ e))))) true =
      parseFields a b c (d1 ++ d2) e := by
  set s := a ++ (b ++ (c ++ (d1 ++ (d2 ++ e)))) with hs
  have h8 : s.drop 8 = b ++ (c ++ (d1 ++ (d2 ++ e))) := by
    rw [hs]
    exact drop_append_len' _ _ 8 ha
  have h12 : s.drop 12 = c ++ (d1 ++ (d2 ++ e)) := by
    rw [show (12 : Nat) = 8 + 4 from rfl, ← List.drop_drop, h8]
    exact drop_append_len' _ _ 4 hb
  have h16 : s.drop 16 = d1 ++ (d2 ++ e) := by
    rw [show (16 : Nat) = 12 + 4 from rfl, ← List.drop_drop, h12]
    exact drop_append_len' _ _ 4 hc
  have h20 : s.drop 20 = e := by
    rw [show (20 : Nat) = 16 + 4 from rfl, ← List.drop_drop, h16,
      ← List.append_assoc]
    exact drop_append_len' _ _ 4 (by simp [hd1, hd2])
  have g1 : slice s 0 8 = a := by
    rw [show slice s 0 8 = (s.drop 0).take 8 from rfl, List.drop_zero, hs]
    exact take_append_len' _ _ 8 ha
  have g2 : slice s 8 12 = b := by
    rw [show slice s 8 12 = (s.drop 8).take 4 from rfl, h8]
    exact take_append_len' _ _ 4 hb
  have g3 : slice s 12 16 = c := by
    rw [show slice s 12 16 = (s.drop 12).take 4 from rfl, h12]
    exact take_append_len' _ _ 4 hc
  have g4 : slice s 16 20 = d1 ++ d2 := by
    rw [show slice s 16 20 = (s.drop 16).take 4 from rfl, h16,
      ← List.append_assoc]
    exact take_append_len' _ _ 4 (by simp [hd1, hd2])
  show parseFields (slice s 0 8) (slice s 8 12) (slice s 12 16)
    (slice s 16 20) (s.drop 20) = parseFields a b c (d1 ++ d2) e
  rw [g1, g2, g3, g4, h20]

/-! ## Shape selection of `from_str` -/

theorem from_str_len36 (s : List Nat) (hlen : s.length = 36)
    (ha : isAscii s = true) : Uuid.from_str s = parseCore s false := by
  unfold Uuid.from_str
  rw [hlen, ha]
  simp

theorem from_str_len45 (s : List Nat) (hlen : s.length = 45)
    (ha : isAscii s = true) :
    Uuid.from_str s = parseCore (s.drop 9) false := by
  unfold Uuid.from_str
  rw [hlen, ha]
  simp

theorem from_str_len38 (s : List Nat) (hlen : s.length = 38)
    (ha : isAscii s = true) :
    Uuid.from_str s = parseCore ((s.drop 1).take 36) false := by
  unfold Uuid.from_str
  rw [hlen, ha]
  simp

theorem from_str_len32 (s : List Nat) (hlen : s.length = 32)
    (ha : isAscii s = true) : Uuid.from_str s = parseCore s true := by
  unfold Uuid.from_str
  rw [hlen, ha]
  simp

/-! ## Facts about the formatted output -/

theorem to_str_length (u : Uuid) (h : u.wf) : u.to_str.length = 36 := by
  obtain ⟨h0, h1, h2, h3, h4, h5, h6, h7, h8, h9, h10, h11, h12, h13, h14,
    h15⟩ := h
  unfold Uuid.to_str
  simp only [List.length_append]
  rw [toHexPad_length 8 _ (by norm_num; omega),
    toHexPad_length 4 _ (by norm_num; omega),
    toHexPad_length 4 _ (by norm_num; omega),
    toHexPad_length 2 _ (by norm_num; omega),
    toHexPad_length 2 _ (by norm_num; omega),
    toHexPad_length 12 _ (by norm_num; omega)]
  simp

theorem to_str_chars (u : Uuid) :
    ∀ c ∈ u.to_str, isHexDigit c = true ∨ c = 45 := by
  unfold Uuid.to_str
  simp only [List.forall_mem_append]
  repeat' apply And.intro
  all_goals first
    | exact fun c hc => Or.inl (isHexDigit_mem_toHexPad _ _ c hc)
    | exact fun c hc => Or.inr (by simpa using hc)

theorem to_str_ascii (u : Uuid) : isAscii u.to_str = true := by
  unfold isAscii
  rw [List.all_eq_true]
  intro c hc
  rcases to_str_chars u c hc with h | h
  · simpa using isHexDigit_lt h
  · subst h
    decide

theorem isAscii_map_upper {s : List Nat} (h : isAscii s = true) :
    isAscii (s.map asciiUpper) = true := by
  unfold isAscii at h ⊢
  rw [List.all_eq_true] at h ⊢
  intro c hc
  rcases List.mem_map.mp hc with ⟨x, hx, rfl⟩
  simpa using asciiUpper_lt (by simpa using h x hx)

theorem isAscii_append {s t : List Nat} (hs : isAscii s = true)
    (ht : isAscii t = true) : isAscii (s ++ t) = true := by
  unfold isAscii at hs ht ⊢
  rw [List.all_append, hs, ht]
  rfl

theorem toHexPad_ne_nil (w v : Nat) (hw : 0 < w) (hv : v < 16 ^ w) :
    toHexPad w v ≠ [] := by
  intro h
  have hl := toHexPad_length w v hv
  rw [h] at hl
  simp at hl
  omega

theorem parseFields_pads (v1 v2 v3 x y v5 : Nat)
    (h1 : v1 < 16 ^ 8) (h2 : v2 < 16 ^ 4) (h3 : v3 < 16 ^ 4)
    (hx : x < 256) (hy : y < 256) (h5 : v5 < 16 ^ 12) :
    parseFields (toHexPad 8 v1) (toHexPad 4 v2) (toHexPad 4 v3)
      (toHexPad 2 x ++ toHexPad 2 y) (toHexPad 12 v5) =
      some (ofFields v1 v2 v3 (x * 256 + y) v5) := by
  unfold parseFields
  rw [fromStrRadix16_toHexPad (2 ^ 32) 8 v1 (by norm_num) h1
      (by norm_num at h1 ⊢; omega),
    fromStrRadix16_toHexPad (2 ^ 16) 4 v2 (by norm_num) h2
      (by norm_num at h2 ⊢; omega),
    fromStrRadix16_toHexPad (2 ^ 16) 4 v3 (by norm_num) h3
      (by norm_num at h3 ⊢; omega),
    fromStrRadix16_pad2pair (2 ^ 16) x y hx hy (by norm_num; omega),
    fromStrRadix16_toHexPad (2 ^ 64) 12 v5 (by norm_num) h5
      (by norm_num at h5 ⊢; omega)]

theorem parseFields_map_upper (a b c d e : List Nat)
    (hna : a ≠ []) (hnb : b ≠ []) (hnc : c ≠ []) (hnd : d ≠ [])
    (hne : e ≠ [])
    (hha : ∀ x ∈ a, isHexDigit x = true)
    (hhb : ∀ x ∈ b, isHexDigit x = true)
    (hhc : ∀ x ∈ c, isHexDigit x = true)
    (hhd : ∀ x ∈ d, isHexDigit x = true)
    (hhe : ∀ x ∈ e, isHexDigit x = true) :
    parseFields (a.map asciiUpper) (b.map asciiUpper) (c.map asciiUpper)
      (d.map asciiUpper) (e.map asciiUpper) = parseFields a b c d e := by
  unfold parseFields
  rw [fromStrRadix16_map_upper _ hna hha, fromStrRadix16_map_upper _ hnb hhb,
    fromStrRadix16_map_upper _ hnc hhc, fromStrRadix16_map_upper _ hnd hhd,
    fromStrRadix16_map_upper _ hne hhe]

theorem parseCore_to_str (u : Uuid) (h : u.wf) :
    parseCore u.to_str false = some u := by
  rcases u with ⟨b0, b1, b2, b3, b4, b5, b6, b7, b8, b9, b10, b11, b12,
    b13, b14, b15⟩
  obtain ⟨h0, h1, h2, h3, h4, h5, h6, h7, h8, h9, h10, h11, h12, h13, h14,
    h15⟩ := h
  dsimp only at h0 h1 h2 h3 h4 h5 h6 h7 h8 h9 h10 h11 h12 h13 h14 h15
  unfold Uuid.to_str
  simp only [List.append_assoc]
  rw [parseCore_hyph _ _ _ _ _ _
    (toHexPad_length 8 _ (by norm_num; omega))
    (toHexPad_length 4 _ (by norm_num; omega))
    (toHexPad_length 4 _ (by norm_num; omega))
    (toHexPad_length 2 _ (by norm_num; omega))
    (toHexPad_length 2 _ (by norm_num; omega))]
  rw [parseFields_pads _ _ _ _ _ _ (by norm_num; omega) (by norm_num; omega)
    (by norm_num; omega) h8 h9 (by norm_num; omega)]
  simp only [ofFields, Option.some.injEq, Uuid.mk.injEq]
  repeat' apply And.intro
  all_goals omega

theorem parseCore_to_str_upper (u : Uuid) (h : u.wf) :
    parseCore (u.to_str.map asciiUpper) false = some u := by
  rcases u with ⟨b0, b1, b2, b3, b4, b5, b6, b7, b8, b9, b10, b11, b12,
    b13, b14, b15⟩
  obtain ⟨h0, h1, h2, h3, h4, h5, h6, h7, h8, h9, h10, h11, h12, h13, h14,
    h15⟩ := h
  dsimp only at h0 h1 h2 h3 h4 h5 h6 h7 h8 h9 h10 h11 h12 h13 h14 h15
  unfold Uuid.to_str
  simp only [List.map_append, List.map_cons, List.map_nil,
    List.append_assoc]
  rw [show asciiUpper 45 = 45 from by decide]
  rw [parseCore_hyph _ _ _ _ _ _
    (by rw [List.length_map]; exact toHexPad_length 8 _ (by norm_num; omega))
    (by rw [List.length_map]; exact toHexPad_length 4 _ (by norm_num; omega))
    (by rw [List.length_map]; exact toHexPad_length 4 _ (by norm_num; omega))
    (by rw [List.length_map]; exact toHexPad_length 2 _ (by norm_num; omega))
    (by rw [List.length_map]; exact toHexPad_length 2 _ (by norm_num; omega))]
  rw [← List.map_append]
  rw [parseFields_map_upper _ _ _ _ _
    (toHexPad_ne_nil 8 _ (by norm_num) (by norm_num; omega))
    (toHexPad_ne_nil 4 _ (by norm_num) (by norm_num; omega))
    (toHexPad_ne_nil 4 _ (by norm_num) (by norm_num; omega))
    (fun hcontra => toHexPad_ne_nil 2 b8 (by norm_num)
      (by norm_num; omega) (List.append_eq_nil.mp hcontra).1)
    (toHexPad_ne_nil 12 _ (by norm_num) (by norm_num; omega))
    (isHexDigit_mem_toHexPad 8 _) (isHexDigit_mem_toHexPad 4 _)
    (isHexDigit_mem_toHexPad 4 _)
    (fun x hx => by
      rcases List.mem_append.mp hx with hm | hm
      · exact isHexDigit_mem_toHexPad 2 _ x hm
      · exact isHexDigit_mem_toHexPad 2 _ x hm)
    (isHexDigit_mem_toHexPad 12 _)]
  rw [parseFields_pads _ _ _ _ _ _ (by norm_num; omega) (by norm_num; omega)
    (by norm_num; omega) h8 h9 (by norm_num; omega)]
  simp only [ofFields, Option.some.injEq, Uuid.mk.injEq]
  repeat' apply And.intro
  all_goals omega

theorem to_simple_length (u : Uuid) (h : u.wf) : u.to_simple.length = 32 := by
  obtain ⟨h0, h1, h2, h3, h4, h5, h6, h7, h8, h9, h10, h11, h12, h13, h14,
    h15⟩ := h
  unfold Uuid.to_simple
  simp only [List.length_append]
  rw [toHexPad_length 8 _ (by norm_num; omega),
    toHexPad_length 4 _ (by norm_num; omega),
    toHexPad_length 4 _ (by norm_num; omega),
    toHexPad_length 2 _ (by norm_num; omega),
    toHexPad_length 2 _ (by norm_num; omega),
    toHexPad_length 12 _ (by norm_num; omega)]

theorem to_simple_chars (u : Uuid) :
    ∀ c ∈ u.to_simple, isHexDigit c = true := by
  unfold Uuid.to_simple
  simp only [List.forall_mem_append]
  repeat' apply And.intro
  all_goals exact fun c hc => isHexDigit_mem_toHexPad _ _ c hc

theorem to_simple_ascii (u : Uuid) : isAscii u.to_simple = true := by
  unfold isAscii
  rw [List.all_eq_true]
  intro c hc
  simpa using isHexDigit_lt (to_simple_chars u c hc)

theorem parseCore_to_simple (u : Uuid) (h : u.wf) :
    parseCore u.to_simple true = some u := by
  rcases u with ⟨b0, b1, b2, b3, b4, b5, b6, b7, b8, b9, b10, b11, b12,
    b13, b14, b15⟩
  obtain ⟨h0, h1, h2, h3, h4, h5, h6, h7, h8, h9, h10, h11, h12, h13, h14,
    h15⟩ := h
  dsimp only at h0 h1 h2 h3 h4 h5 h6 h7 h8 h9 h10 h11 h12 h13 h14 h15
  unfold Uuid.to_simple
  simp only [List.append_assoc]
  rw [parseCore_simple _ _ _ _ _ _
    (toHexPad_length 8 _ (by norm_num; omega))
    (toHexPad_length 4 _ (by norm_num; omega))
    (toHexPad_length 4 _ (by norm_num; omega))
    (toHexPad_length 2 _ (by norm_num; omega))
    (toHexPad_length 2 _ (by norm_num; omega))]
  rw [parseFields_pads _ _ _ _ _ _ (by norm_num; omega) (by norm_num; omega)
    (by norm_num; omega) h8 h9 (by norm_num; omega)]
  simp only [ofFields, Option.some.injEq, Uuid.mk.injEq]
  repeat' apply And.intro
  all_goals omega

theorem parseCore_to_simple_upper (u : Uuid) (h : u.wf) :
    parseCore (u.to_simple.map asciiUpper) true = some u := by
  rcases u with ⟨b0, b1, b2, b3, b4, b5, b6, b7, b8, b9, b10, b11, b12,
    b13, b14, b15⟩
  obtain ⟨h0, h1, h2, h3, h4, h5, h6, h7, h8, h9, h10, h11, h12, h13, h14,
    h15⟩ := h
  dsimp only at h0 h1 h2 h3 h4 h5 h6 h7 h8 h9 h10 h11 h12 h13 h14 h15
  unfold Uuid.to_simple
  simp only [List.map_append, List.append_assoc]
  rw [parseCore_simple _ _ _ _ _ _
    (by rw [List.length_map]; exact toHexPad_length 8 _ (by norm_num; omega))
    (by rw [List.length_map]; exact toHexPad_length 4 _ (by norm_num; omega))
    (by rw [List.length_map]; exact toHexPad_length 4 _ (by norm_num; omega))
    (by rw [List.length_map]; exact toHexPad_length 2 _ (by norm_num; omega))
    (by rw [List.length_map]; exact toHexPad_length 2 _ (by norm_num; omega))]
  rw [← List.map_append]
  rw [parseFields_map_upper _ _ _ _ _
    (toHexPad_ne_nil 8 _ (by norm_num) (by norm_num; omega))
    (toHexPad_ne_nil 4 _ (by norm_num) (by norm_num; omega))
    (toHexPad_ne_nil 4 _ (by norm_num) (by norm_num; omega))
    (fun hcontra => toHexPad_ne_nil 2 b8 (by norm_num)
      (by norm_num; omega) (List.append_eq_nil.mp hcontra).1)
    (toHexPad_ne_nil 12 _ (by norm_num) (by norm_num; omega))
    (isHexDigit_mem_toHexPad 8 _) (isHexDigit_mem_toHexPad 4 _)
    (isHexDigit_mem_toHexPad 4 _)
    (fun x hx => by
      rcases List.mem_append.mp hx with hm | hm
      · exact isHexDigit_mem_toHexPad 2 _ x hm
      · exact isHexDigit_mem_toHexPad 2 _ x hm)
    (isHexDigit_mem_toHexPad 12 _)]
  rw [parseFields_pads _ _ _ _ _ _ (by norm_num; omega) (by norm_num; omega)
    (by norm_num; omega) h8 h9 (by norm_num; omega)]
  simp only [ofFields, Option.some.injEq, Uuid.mk.injEq]
  repeat' apply And.intro
  all_goals omega

/-! ## Byte-level facts, decided by exhaustive evaluation -/

theorem setVariantByte_spec (t : Variant) : ∀ b, b < 256 →
    (∀ i, i < 8 - t.tagWidth →
      (setVariantByte t b).testBit i = b.testBit i) ∧
    variantOfByte (setVariantByte t b) = t := by
  cases t <;> decide

theorem land15_eq_mod (x : Nat) (h : x < 256) : x &&& 0xF = x % 16 := by
  revert h; revert x; decide

theorem land63_eq_mod (x : Nat) (h : x < 256) : x &&& 0x3F = x % 64 := by
  revert h; revert x; decide

theorem stamp_b6_unmask (x : Nat) (h : x < 256) :
    ((x &&& 0xF) ||| (1 <<< 4)) &&& 0xF = x % 16 := by
  revert h; revert x; decide

theorem stamp_b8_unmask (y : Nat) (h : y < 256) :
    ((y &&& 0x3F) ||| 0x80) &&& 0x3F = y % 64 := by
  revert h; revert y; decide

theorem versionOfByte_stamp (x : Nat) (h : x < 256) :
    versionOfByte ((x &&& 0xF) ||| (Version.Md5.toNat <<< 4)) = Version.Md5 ∧
    versionOfByte ((x &&& 0xF) ||| (Version.Random.toNat <<< 4)) = Version.Random ∧
    versionOfByte ((x &&& 0xF) ||| (Version.Sha1.toNat <<< 4)) = Version.Sha1 ∧
    versionOfByte ((x &&& 0xF) ||| (Version.Vendor.toNat <<< 4)) = Version.Nil ∧
    versionOfByte ((x &&& 0xF) ||| (1 <<< 4)) = Version.Time := by
  revert h; revert x; decide

theorem variantOfByte_rfc (y : Nat) (h : y < 256) :
    variantOfByte ((y &&& 0x3F) ||| 0x80) = Variant.Rfc4122 := by
  revert h; revert y; decide

/-! ## Claim C4 -/

/-- Claim C4: for every 16-byte value `v`,
`swap_endian (swap_endian v) = v` and `from_bytes_me (to_bytes_me v) = v`;
the mixed-endian conversion is its own inverse. -/
theorem claim_C4 (v : Uuid) :
    v.swap_endian.swap_endian = v ∧
    Uuid.from_bytes_me (Uuid.to_bytes_me v) = v := by
  cases v
  exact ⟨rfl, rfl⟩

/-! ## Claim C9 -/

/-- Claim C9 (code bug): the source writes `Uuid([1; 16])` for `max`, so
its bytes are sixteen `0x01`, not the all-ones `0xFF` bytes its own doc
comment and the spec describe. -/
theorem claim_C9_max_bytes :
    Uuid.max.to_bytes = [1, 1, 1, 1, 1, 1, 1, 1, 1, 1, 1, 1, 1, 1, 1, 1] ∧
    Uuid.max.to_bytes ≠ List.replicate 16 0xFF := by
  decide

/-! ## Claim C7 -/

/-- Claim C7: parsing is total (the model returns an `Option`, never
diverges, and all slicing is by total list operations); every input whose
length is not 32, 36, 38 or 45 fails, and every input containing a
non-ASCII byte fails. -/
theorem claim_C7 (s : List Nat) :
    (s.length ≠ 32 ∧ s.length ≠ 36 ∧ s.length ≠ 38 ∧ s.length ≠ 45 →
      Uuid.from_str s = none) ∧
    (isAscii s = false → Uuid.from_str s = none) := by
  constructor
  · intro h
    unfold Uuid.from_str
    split_ifs <;> first | rfl | omega
  · intro h
    unfold Uuid.from_str
    simp [h]

theorem claim_C7_witness :
    Uuid.from_str [48, 49] = none ∧
    Uuid.from_str (List.replicate 36 200) = none :=
  ⟨(claim_C7 [48, 49]).1 (by decide),
   (claim_C7 (List.replicate 36 200)).2 (by decide)⟩

/-! ## Claim C8 -/

/-- Claim C8: `set_variant` changes only the bits of byte 8 belonging to
the target variant's tag pattern (1 bit for NCS, 2 for RFC-4122, 3 for
Microsoft and Reserved): every lower bit of byte 8 keeps its value, every
other byte is untouched, and `variant` of the result is the target. -/
theorem claim_C8 (u : Uuid) (t : Variant) (h : u.b8 < 256) :
    (∀ i, i < 8 - t.tagWidth →
      ((u.set_variant t).b8).testBit i = (u.b8).testBit i) ∧
    ((u.set_variant t).b0 = u.b0 ∧ (u.set_variant t).b1 = u.b1 ∧
     (u.set_variant t).b2 = u.b2 ∧ (u.set_variant t).b3 = u.b3 ∧
     (u.set_variant t).b4 = u.b4 ∧ (u.set_variant t).b5 = u.b5 ∧
     (u.set_variant t).b6 = u.b6 ∧ (u.set_variant t).b7 = u.b7 ∧
     (u.set_variant t).b9 = u.b9 ∧ (u.set_variant t).b10 = u.b10 ∧
     (u.set_variant t).b11 = u.b11 ∧ (u.set_variant t).b12 = u.b12 ∧
     (u.set_variant t).b13 = u.b13 ∧ (u.set_variant t).b14 = u.b14 ∧
     (u.set_variant t).b15 = u.b15) ∧
    (u.set_variant t).variant = t :=
  ⟨(setVariantByte_spec t u.b8 h).1,
   ⟨rfl, rfl, rfl, rfl, rfl, rfl, rfl, rfl, rfl, rfl, rfl, rfl, rfl, rfl,
    rfl⟩,
   (setVariantByte_spec t u.b8 h).2⟩

theorem claim_C8_witness :
    (∀ i, i < 8 - Variant.Microsoft.tagWidth →
      ((Uuid.nil.set_variant Variant.Microsoft).b8).testBit i =
        (Uuid.nil.b8).testBit i) ∧
    ((Uuid.nil.set_variant Variant.Microsoft).b0 = Uuid.nil.b0 ∧
     (Uuid.nil.set_variant Variant.Microsoft).b1 = Uuid.nil.b1 ∧
     (Uuid.nil.set_variant Variant.Microsoft).b2 = Uuid.nil.b2 ∧
     (Uuid.nil.set_variant Variant.Microsoft).b3 = Uuid.nil.b3 ∧
     (Uuid.nil.set_variant Variant.Microsoft).b4 = Uuid.nil.b4 ∧
     (Uuid.nil.set_variant Variant.Microsoft).b5 = Uuid.nil.b5 ∧
     (Uuid.nil.set_variant Variant.Microsoft).b6 = Uuid.nil.b6 ∧
     (Uuid.nil.set_variant Variant.Microsoft).b7 = Uuid.nil.b7 ∧
     (Uuid.nil.set_variant Variant.Microsoft).b9 = Uuid.nil.b9 ∧
     (Uuid.nil.set_variant Variant.Microsoft).b10 = Uuid.nil.b10 ∧
     (Uuid.nil.set_variant Variant.Microsoft).b11 = Uuid.nil.b11 ∧
     (Uuid.nil.set_variant Variant.Microsoft).b12 = Uuid.nil.b12 ∧
     (Uuid.nil.set_variant Variant.Microsoft).b13 = Uuid.nil.b13 ∧
     (Uuid.nil.set_variant Variant.Microsoft).b14 = Uuid.nil.b14 ∧
     (Uuid.nil.set_variant Variant.Microsoft).b15 = Uuid.nil.b15) ∧
    (Uuid.nil.set_variant Variant.Microsoft).variant = Variant.Microsoft :=
  claim_C8 Uuid.nil Variant.Microsoft (by decide)

/-! ## Claim C3 -/

/-- Claim C3: `new_v1` packs a 60-bit timestamp and 14-bit counter:
reading back `timestamp` gives `t mod 2^60`, `clock_sequence` gives
`c mod 2^14`, the node bytes land verbatim in bytes 10-15, and the high
bits are silently discarded, never rejected — `new_v1` is total and equal
to itself on the truncated inputs. -/
theorem claim_C3 (t c n0 n1 n2 n3 n4 n5 : Nat)
    (ht : t < 2 ^ 64) (hc : c < 2 ^ 16) :
    (Uuid.new_v1 t c n0 n1 n2 n3 n4 n5).timestamp = t % 2 ^ 60 ∧
    (Uuid.new_v1 t c n0 n1 n2 n3 n4 n5).clock_sequence = c % 2 ^ 14 ∧
    ((Uuid.new_v1 t c n0 n1 n2 n3 n4 n5).b10 = n0 ∧
     (Uuid.new_v1 t c n0 n1 n2 n3 n4 n5).b11 = n1 ∧
     (Uuid.new_v1 t c n0 n1 n2 n3 n4 n5).b12 = n2 ∧
     (Uuid.new_v1 t c n0 n1 n2 n3 n4 n5).b13 = n3 ∧
     (Uuid.new_v1 t c n0 n1 n2 n3 n4 n5).b14 = n4 ∧
     (Uuid.new_v1 t c n0 n1 n2 n3 n4 n5).b15 = n5) ∧
    Uuid.new_v1 t c n0 n1 n2 n3 n4 n5 =
      Uuid.new_v1 (t % 2 ^ 60) (c % 2 ^ 14) n0 n1 n2 n3 n4 n5 := by
  refine ⟨?_, ?_, ⟨rfl, rfl, rfl, rfl, rfl, rfl⟩, ?_⟩
  · show ((((t / 2 ^ 56 % 256 &&& 0xF) ||| (1 <<< 4)) &&& 0xF) * 2 ^ 56) +
      t / 2 ^ 48 % 256 * 2 ^ 48 + t / 2 ^ 40 % 256 * 2 ^ 40 +
      t / 2 ^ 32 % 256 * 2 ^ 32 + t / 2 ^ 24 % 256 * 2 ^ 24 +
      t / 2 ^ 16 % 256 * 2 ^ 16 + t / 2 ^ 8 % 256 * 2 ^ 8 + t % 256 =
      t % 2 ^ 60
    rw [stamp_b6_unmask (t / 2 ^ 56 % 256) (Nat.mod_lt _ (by omega))]
    omega
  · show ((((c / 2 ^ 8 % 256 &&& 0x3F) ||| 0x80) &&& 0x3F) * 2 ^ 8) +
      c % 256 = c % 2 ^ 14
    rw [stamp_b8_unmask (c / 2 ^ 8 % 256) (Nat.mod_lt _ (by omega))]
    omega
  · have hx := land15_eq_mod (t / 2 ^ 56 % 256) (Nat.mod_lt _ (by omega))
    have hx' := land15_eq_mod (t % 2 ^ 60 / 2 ^ 56 % 256)
      (Nat.mod_lt _ (by omega))
    have hy := land63_eq_mod (c / 2 ^ 8 % 256) (Nat.mod_lt _ (by omega))
    have hy' := land63_eq_mod (c % 2 ^ 14 / 2 ^ 8 % 256)
      (Nat.mod_lt _ (by omega))
    have e0 : t / 2 ^ 24 % 256 = t % 2 ^ 60 / 2 ^ 24 % 256 := by omega
    have e1 : t / 2 ^ 16 % 256 = t % 2 ^ 60 / 2 ^ 16 % 256 := by omega
    have e2 : t / 2 ^ 8 % 256 = t % 2 ^ 60 / 2 ^ 8 % 256 := by omega
    have e3 : t % 256 = t % 2 ^ 60 % 256 := by omega
    have e4 : t / 2 ^ 40 % 256 = t % 2 ^ 60 / 2 ^ 40 % 256 := by omega
    have e5 : t / 2 ^ 32 % 256 = t % 2 ^ 60 / 2 ^ 32 % 256 := by omega
    have e6 : t / 2 ^ 56 % 256 &&& 0xF = t % 2 ^ 60 / 2 ^ 56 % 256 &&& 0xF := by
      rw [hx, hx']; omega
    have e7 : t / 2 ^ 48 % 256 = t % 2 ^ 60 / 2 ^ 48 % 256 := by omega
    have e8 : c / 2 ^ 8 % 256 &&& 0x3F = c % 2 ^ 14 / 2 ^ 8 % 256 &&& 0x3F := by
      rw [hy, hy']; omega
    have e9 : c % 256 = c % 2 ^ 14 % 256 := by omega
    unfold Uuid.new_v1
    rw [e0, e1, e2, e3, e4, e5, e6, e7, e8, e9]

theorem claim_C3_witness :
    (Uuid.new_v1 (2 ^ 63 + 5) (2 ^ 15 + 7) 1 2 3 4 5 6).timestamp =
      (2 ^ 63 + 5) % 2 ^ 60 ∧
    (Uuid.new_v1 (2 ^ 63 + 5) (2 ^ 15 + 7) 1 2 3 4 5 6).clock_sequence =
      (2 ^ 15 + 7) % 2 ^ 14 ∧
    ((Uuid.new_v1 (2 ^ 63 + 5) (2 ^ 15 + 7) 1 2 3 4 5 6).b10 = 1 ∧
     (Uuid.new_v1 (2 ^ 63 + 5) (2 ^ 15 + 7) 1 2 3 4 5 6).b11 = 2 ∧
     (Uuid.new_v1 (2 ^ 63 + 5) (2 ^ 15 + 7) 1 2 3 4 5 6).b12 = 3 ∧
     (Uuid.new_v1 (2 ^ 63 + 5) (2 ^ 15 + 7) 1 2 3 4 5 6).b13 = 4 ∧
     (Uuid.new_v1 (2 ^ 63 + 5) (2 ^ 15 + 7) 1 2 3 4 5 6).b14 = 5 ∧
     (Uuid.new_v1 (2 ^ 63 + 5) (2 ^ 15 + 7) 1 2 3 4 5 6).b15 = 6) ∧
    Uuid.new_v1 (2 ^ 63 + 5) (2 ^ 15 + 7) 1 2 3 4 5 6 =
      Uuid.new_v1 ((2 ^ 63 + 5) % 2 ^ 60) ((2 ^ 15 + 7) % 2 ^ 14)
        1 2 3 4 5 6 :=
  claim_C3 (2 ^ 63 + 5) (2 ^ 15 + 7) 1 2 3 4 5 6 (by norm_num) (by norm_num)

/-! ## Claim C2 -/

/-- Claim C2 (code bug in the v8 conjunct): the v1/v3/v4/v5 generators
produce values whose `variant` is `Rfc4122` and whose `version` is
`Time`/`Md5`/`Random`/`Sha1` respectively, for every digest/random
payload; but `new_v8` — though it writes version bits `1000` — reads back
as `Version.Nil`, not `Vendor`, because `Uuid::version`'s match decodes
only versions 0-5 and sends the pattern 8 to its wildcard arm. -/
theorem claim_C2_tags :
    (∀ d : Uuid, d.b6 < 256 → d.b8 < 256 →
      ((Uuid.new_v4_of d).variant = Variant.Rfc4122 ∧
        (Uuid.new_v4_of d).version = Version.Random) ∧
      ((Uuid.new_v3_of d).variant = Variant.Rfc4122 ∧
        (Uuid.new_v3_of d).version = Version.Md5) ∧
      ((Uuid.new_v5_of d).variant = Variant.Rfc4122 ∧
        (Uuid.new_v5_of d).version = Version.Sha1) ∧
      ((Uuid.new_v8 d).variant = Variant.Rfc4122 ∧
        (Uuid.new_v8 d).version = Version.Nil)) ∧
    (∀ t c n0 n1 n2 n3 n4 n5,
      (Uuid.new_v1 t c n0 n1 n2 n3 n4 n5).variant = Variant.Rfc4122 ∧
      (Uuid.new_v1 t c n0 n1 n2 n3 n4 n5).version = Version.Time) ∧
    ((Uuid.new_v8 Uuid.nil).version = Version.Nil ∧
      Version.Nil ≠ Version.Vendor) := by
  refine ⟨?_, ?_, rfl, by decide⟩
  · intro d h6 h8
    refine ⟨⟨?_, (versionOfByte_stamp d.b6 h6).2.1⟩,
      ⟨?_, (versionOfByte_stamp d.b6 h6).1⟩,
      ⟨?_, (versionOfByte_stamp d.b6 h6).2.2.1⟩,
      ⟨?_, (versionOfByte_stamp d.b6 h6).2.2.2.1⟩⟩ <;>
      exact (setVariantByte_spec Variant.Rfc4122 d.b8 h8).2
  · intro t c n0 n1 n2 n3 n4 n5
    exact ⟨variantOfByte_rfc (c / 2 ^ 8 % 256) (Nat.mod_lt _ (by omega)),
      (versionOfByte_stamp (t / 2 ^ 56 % 256)
        (Nat.mod_lt _ (by omega))).2.2.2.2⟩

theorem claim_C2_tags_witness :
    (Uuid.new_v4_of Uuid.nil).version = Version.Random ∧
    (Uuid.new_v8 Uuid.nil).version = Version.Nil :=
  ⟨((claim_C2_tags.1 Uuid.nil (by decide) (by decide)).1).2,
   claim_C2_tags.2.2.1⟩

/-! ## Claim C1 -/

/-- Claim C1: for every 16-byte value, formatting in each of the four
textual shapes (hyphenated `to_str`, URN `to_urn`, braced and simple —
the latter two modelled from the spec, since the source only has
hyphenated and URN formatters) in either letter case and then parsing the
result yields the value back. -/
theorem claim_C1 (u : Uuid) (h : u.wf) :
    Uuid.from_str u.to_str = some u ∧
    Uuid.from_str u.to_str_upper = some u ∧
    Uuid.from_str u.to_urn = some u ∧
    Uuid.from_str u.to_urn_upper = some u ∧
    Uuid.from_str u.to_braced = some u ∧
    Uuid.from_str u.to_braced_upper = some u ∧
    Uuid.from_str u.to_simple = some u ∧
    Uuid.from_str u.to_simple_upper = some u := by
  have hlen := to_str_length u h
  have hascii := to_str_ascii u
  have hlenU : (u.to_str.map asciiUpper).length = 36 := by
    rw [List.length_map]
    exact hlen
  have hasciiU := isAscii_map_upper hascii
  have hcore := parseCore_to_str u h
  have hcoreU := parseCore_to_str_upper u h
  have hslen := to_simple_length u h
  have hsascii := to_simple_ascii u
  have hslenU : (u.to_simple.map asciiUpper).length = 32 := by
    rw [List.length_map]
    exact hslen
  have hsasciiU := isAscii_map_upper hsascii
  refine ⟨?_, ?_, ?_, ?_, ?_, ?_, ?_, ?_⟩
  · rw [from_str_len36 _ hlen hascii]
    exact hcore
  · unfold Uuid.to_str_upper
    rw [from_str_len36 _ hlenU hasciiU]
    exact hcoreU
  · unfold Uuid.to_urn
    rw [from_str_len45 _ (by rw [List.length_append, hlen]; rfl)
        (isAscii_append (by decide) hascii),
      drop_append_len' urnBytes _ 9 rfl]
    exact hcore
  · unfold Uuid.to_urn_upper
    rw [from_str_len45 _ (by rw [List.length_append, hlenU]; rfl)
        (isAscii_append (by decide) hasciiU),
      drop_append_len' urnBytes _ 9 rfl]
    exact hcoreU
  · unfold Uuid.to_braced
    rw [from_str_len38 _ (by simp [hlen])
        (isAscii_append (isAscii_append (by decide) hascii) (by decide)),
      List.append_assoc, drop_append_len' [123] _ 1 rfl,
      take_append_len' _ _ 36 hlen]
    exact hcore
  · unfold Uuid.to_braced_upper
    rw [from_str_len38 _ (by simp [hlenU])
        (isAscii_append (isAscii_append (by decide) hasciiU) (by decide)),
      List.append_assoc, drop_append_len' [123] _ 1 rfl,
      take_append_len' _ _ 36 hlenU]
    exact hcoreU
  · rw [from_str_len32 _ hslen hsascii]
    exact parseCore_to_simple u h
  · unfold Uuid.to_simple_upper
    rw [from_str_len32 _ hslenU hsasciiU]
    exact parseCore_to_simple_upper u h

theorem claim_C1_witness :
    Uuid.nil.wf ∧
    Uuid.from_str Uuid.nil.to_str = some Uuid.nil ∧
    Uuid.from_str Uuid.nil.to_urn_upper = some Uuid.nil ∧
    Uuid.from_str Uuid.nil.to_simple_upper = some Uuid.nil :=
  ⟨by decide, (claim_C1 Uuid.nil (by decide)).1,
   (claim_C1 Uuid.nil (by decide)).2.2.2.1,
   (claim_C1 Uuid.nil (by decide)).2.2.2.2.2.2.2⟩

/-! ## Claim C10 -/

/-- Claim C10: `to_str` always succeeds — its rendering is exactly 36
bytes, each an ASCII hex digit or hyphen (in particular below 128), so
writing it into the caller's 36-byte buffer cannot hit the
`BytesWrapper` capacity branch and the UTF-8 reinterpretation cannot
fail: both `expect` panic paths are unreachable.  In the model `to_str`
is a total function producing exactly this list. -/
theorem claim_C10 (u : Uuid) (h : u.wf) :
    u.to_str.length = 36 ∧
    ∀ c ∈ u.to_str, (isHexDigit c = true ∨ c = 45) ∧ c < 128 := by
  refine ⟨to_str_length u h, fun c hc => ⟨to_str_chars u c hc, ?_⟩⟩
  rcases to_str_chars u c hc with h' | h'
  · exact isHexDigit_lt h'
  · omega

theorem claim_C10_witness :
    Uuid.nil.wf ∧ Uuid.nil.to_str.length = 36 :=
  ⟨by decide, (claim_C10 Uuid.nil (by decide)).1⟩

/-! ## Failure analysis of the group parser -/

theorem fromStrRadix16_none {s : List Nat} (bound : Nat)
    (h : parseHexAcc 0 (stripPlus s) = none) :
    fromStrRadix16 bound s = none := by
  unfold fromStrRadix16
  rw [h]
  split <;> rfl

theorem fromStrRadix16_none_of_bad (bound : Nat) {g : List Nat} {i c : Nat}
    (hget : g.get? i = some c) (hbad : isHexDigit c = false)
    (hnp : ¬(i = 0 ∧ c = 43)) :
    fromStrRadix16 bound g = none := by
  apply fromStrRadix16_none
  rcases g with _ | ⟨c0, rest⟩
  · simp at hget
  · by_cases h43 : c0 = 43
    · subst h43
      have hsp : stripPlus (43 :: rest) = rest := by simp [stripPlus]
      rw [hsp]
      rcases i with _ | j
      · exfalso
        have hc : c = 43 := by
          have : some (43 : Nat) = some c := by simpa using hget
          exact (Option.some.injEq _ _ ▸ this).symm
        exact hnp ⟨rfl, hc⟩
      · have hget' : rest.get? j = some c := by simpa using hget
        exact parseHexAcc_none_of_mem (List.get?_mem hget') hbad 0
    · have hsp : stripPlus (c0 :: rest) = c0 :: rest := by
        simp [stripPlus, h43]
      rw [hsp]
      exact parseHexAcc_none_of_mem (List.get?_mem hget) hbad 0

theorem parseFields_none {a b c d e : List Nat}
    (h : fromStrRadix16 (2 ^ 32) a = none ∨
      fromStrRadix16 (2 ^ 16) b = none ∨
      fromStrRadix16 (2 ^ 16) c = none ∨
      fromStrRadix16 (2 ^ 16) d = none ∨
      fromStrRadix16 (2 ^ 64) e = none) :
    parseFields a b c d e = none := by
  unfold parseFields
  rcases h with h | h | h | h | h <;> rw [h] <;>
    cases fromStrRadix16 (2 ^ 32) a <;>
    cases fromStrRadix16 (2 ^ 16) b <;>
    cases fromStrRadix16 (2 ^ 16) c <;>
    cases fromStrRadix16 (2 ^ 16) d <;>
    cases fromStrRadix16 (2 ^ 64) e <;>
    rfl

theorem parseCore_none_of_group {s : List Nat} {off : Bool} {g : List Nat}
    (hg : g ∈ groupsCore s off)
    (hnone : ∀ bound, fromStrRadix16 bound g = none) :
    parseCore s off = none := by
  cases off
  · have hg' : g ∈ [slice s 0 8, slice s 9 13, slice s 14 18,
        slice s 19 23, s.drop 24] := hg
    simp only [List.mem_cons, List.not_mem_nil, or_false] at hg'
    show parseFields (slice s 0 8) (slice s 9 13) (slice s 14 18)
      (slice s 19 23) (s.drop 24) = none
    rcases hg' with rfl | rfl | rfl | rfl | rfl
    · exact parseFields_none (Or.inl (hnone _))
    · exact parseFields_none (Or.inr (Or.inl (hnone _)))
    · exact parseFields_none (Or.inr (Or.inr (Or.inl (hnone _))))
    · exact parseFields_none (Or.inr (Or.inr (Or.inr (Or.inl (hnone _)))))
    · exact parseFields_none (Or.inr (Or.inr (Or.inr (Or.inr (hnone _)))))
  · have hg' : g ∈ [slice s 0 8, slice s 8 12, slice s 12 16,
        slice s 16 20, s.drop 20] := hg
    simp only [List.mem_cons, List.not_mem_nil, or_false] at hg'
    show parseFields (slice s 0 8) (slice s 8 12) (slice s 12 16)
      (slice s 16 20) (s.drop 20) = none
    rcases hg' with rfl | rfl | rfl | rfl | rfl
    · exact parseFields_none (Or.inl (hnone _))
    · exact parseFields_none (Or.inr (Or.inl (hnone _)))
    · exact parseFields_none (Or.inr (Or.inr (Or.inl (hnone _))))
    · exact parseFields_none (Or.inr (Or.inr (Or.inr (Or.inl (hnone _)))))
    · exact parseFields_none (Or.inr (Or.inr (Or.inr (Or.inr (hnone _)))))

/-! ## Claim C5 -/

/-- Claim C5 is false as stated: Rust's `from_str_radix` accepts one
leading `+` sign in each group, so this 36-character input — whose first
extracted hex group `+62aa7c7` contains the non-hex-digit `+` — parses
successfully. -/
theorem claim_C5_counterexample :
    plusInput.length = 36 ∧
    43 ∈ (extractedGroups plusInput).getD 0 [] ∧
    isHexDigit 43 = false ∧
    Uuid.from_str plusInput ≠ none := by
  decide

/-- Claim C5 amended: for every input of one of the four accepted
lengths, if any of the five extracted hex groups contains a character
that is not an ASCII hexadecimal digit — other than a single `+` as the
group's first character, which Rust's integer parser accepts — parsing
fails with the parse error. -/
theorem claim_C5_amended (s : List Nat)
    (hlen : s.length = 32 ∨ s.length = 36 ∨ s.length = 38 ∨
      s.length = 45)
    (hbad : ∃ g ∈ extractedGroups s, ∃ i c, g.get? i = some c ∧
      isHexDigit c = false ∧ ¬(i = 0 ∧ c = 43)) :
    Uuid.from_str s = none := by
  obtain ⟨g, hg, i, c, hget, hc, hnp⟩ := hbad
  by_cases hascii : isAscii s = true
  · have hnone : ∀ bound, fromStrRadix16 bound g = none :=
      fun bound => fromStrRadix16_none_of_bad bound hget hc hnp
    rcases hlen with hlen | hlen | hlen | hlen
    · rw [from_str_len32 s hlen hascii]
      refine parseCore_none_of_group ?_ hnone
      unfold extractedGroups at hg
      rw [hlen] at hg
      simpa using hg
    · rw [from_str_len36 s hlen hascii]
      refine parseCore_none_of_group ?_ hnone
      unfold extractedGroups at hg
      rw [hlen] at hg
      simpa using hg
    · rw [from_str_len38 s hlen hascii]
      refine parseCore_none_of_group ?_ hnone
      unfold extractedGroups at hg
      rw [hlen] at hg
      simpa using hg
    · rw [from_str_len45 s hlen hascii]
      refine parseCore_none_of_group ?_ hnone
      unfold extractedGroups at hg
      rw [hlen] at hg
      simpa using hg
  · unfold Uuid.from_str
    have hfalse : isAscii s = false := by
      cases hval : isAscii s
      · rfl
      · exact absurd hval hascii
    rw [hfalse]
    simp

theorem claim_C5_amended_witness : Uuid.from_str gInput = none :=
  claim_C5_amended gInput (by decide)
    ⟨slice gInput 0 8, by decide, 0, 103, by decide, by decide, by decide⟩

/-! ## Claim C6 -/

theorem isAscii_set {s : List Nat} {i x : Nat} (h : isAscii s = true)
    (hx : x < 128) : isAscii (s.set i x) = true := by
  unfold isAscii at h ⊢
  rw [List.all_eq_true] at h ⊢
  intro c hc
  rcases List.mem_or_eq_of_mem_set hc with h' | rfl
  · exact h c h'
  · simpa using hx

theorem slice_set_out {s : List Nat} {i x a b : Nat} (h : i < a ∨ b ≤ i) :
    slice (s.set i x) a b = slice s a b := by
  apply List.ext_getElem
  · simp [slice]
  · intro j h1 h2
    simp only [slice] at h1 h2 ⊢
    simp only [List.length_take, List.length_drop, List.length_set] at h1
    rw [List.getElem_take, List.getElem_drop, List.getElem_take,
      List.getElem_drop, List.getElem_set_ne (by omega)]

theorem drop_set_out {s : List Nat} {i x n : Nat} (h : i < n) :
    (s.set i x).drop n = s.drop n := by
  apply List.ext_getElem
  · simp
  · intro j h1 h2
    simp only [List.length_drop, List.length_set] at h1
    rw [List.getElem_drop, List.getElem_drop,
      List.getElem_set_ne (by omega)]

/-- Claim C6 is false as stated: this 38-character input is delimited by
`[` and `]`, not `{` and `}`, yet it parses successfully — `from_str`
strips the first and last byte of a 38-byte input without ever looking at
them. -/
theorem claim_C6_counterexample :
    bracketInput.length = 38 ∧
    bracketInput.get? 0 ≠ some 123 ∧
    bracketInput.get? 37 ≠ some 125 ∧
    Uuid.from_str bracketInput ≠ none := by
  decide

/-- Claim C6 amended: parsing never validates the fixed non-hex
characters.  A 38-byte ASCII input parses exactly as its middle 36 bytes
do, whatever its first and last bytes are; a 45-byte ASCII input parses
exactly as its last 36 bytes do, whatever its first 9 bytes are; and the
bytes at positions 8, 13, 18 and 23 of a 36-byte ASCII input are ignored
entirely. -/
theorem claim_C6_amended :
    (∀ (a b : Nat) (s : List Nat), a < 128 → b < 128 → s.length = 36 →
      isAscii s = true →
      Uuid.from_str (a :: (s ++ [b])) = Uuid.from_str s) ∧
    (∀ (p s : List Nat), p.length = 9 → isAscii p = true →
      s.length = 36 → isAscii s = true →
      Uuid.from_str (p ++ s) = Uuid.from_str s) ∧
    (∀ (s : List Nat) (x8 x13 x18 x23 : Nat), s.length = 36 →
      isAscii s = true → x8 < 128 → x13 < 128 → x18 < 128 → x23 < 128 →
      Uuid.from_str ((((s.set 8 x8).set 13 x13).set 18 x18).set 23 x23) =
        Uuid.from_str s) := by
  refine ⟨?_, ?_, ?_⟩
  · intro a b s ha hb hlen hascii
    have hascii' : isAscii (a :: (s ++ [b])) = true := by
      unfold isAscii at hascii ⊢
      simp only [List.all_cons, List.all_append, Bool.and_eq_true,
        decide_eq_true_eq]
      refine ⟨ha, hascii, ?_⟩
      simp [hb]
    rw [from_str_len38 _ (by simp [hlen]) hascii',
      from_str_len36 _ hlen hascii]
    have hd1 : (a :: (s ++ [b])).drop 1 = s ++ [b] := rfl
    rw [hd1, take_append_len' _ _ 36 hlen]
  · intro p s hp hpascii hlen hascii
    rw [from_str_len45 _ (by simp [hp, hlen]) (isAscii_append hpascii hascii),
      from_str_len36 _ hlen hascii, drop_append_len' p s 9 hp]
  · intro s x8 x13 x18 x23 hlen hascii h8 h13 h18 h23
    have hlen4 : ((((s.set 8 x8).set 13 x13).set 18 x18).set 23 x23).length
        = 36 := by
      simp [hlen]
    have hascii4 : isAscii ((((s.set 8 x8).set 13 x13).set 18 x18).set 23
        x23) = true :=
      isAscii_set (isAscii_set (isAscii_set (isAscii_set hascii h8) h13)
        h18) h23
    rw [from_str_len36 _ hlen4 hascii4, from_str_len36 _ hlen hascii]
    set s4 := (((s.set 8 x8).set 13 x13).set 18 x18).set 23 x23 with hs4
    have e1 : slice s4 0 8 = slice s 0 8 := by
      rw [hs4, slice_set_out (Or.inr (by norm_num)),
        slice_set_out (Or.inr (by norm_num)),
        slice_set_out (Or.inr (by norm_num)),
        slice_set_out (Or.inr (by norm_num))]
    have e2 : slice s4 9 13 = slice s 9 13 := by
      rw [hs4, slice_set_out (Or.inr (by norm_num)),
        slice_set_out (Or.inr (by norm_num)),
        slice_set_out (Or.inr (by norm_num)),
        slice_set_out (Or.inl (by norm_num))]
    have e3 : slice s4 14 18 = slice s 14 18 := by
      rw [hs4, slice_set_out (Or.inr (by norm_num)),
        slice_set_out (Or.inr (by norm_num)),
        slice_set_out (Or.inl (by norm_num)),
        slice_set_out (Or.inl (by norm_num))]
    have e4 : slice s4 19 23 = slice s 19 23 := by
      rw [hs4, slice_set_out (Or.inr (by norm_num)),
        slice_set_out (Or.inl (by norm_num)),
        slice_set_out (Or.inl (by norm_num)),
        slice_set_out (Or.inl (by norm_num))]
    have e5 : s4.drop 24 = s.drop 24 := by
      rw [hs4, drop_set_out (by norm_num), drop_set_out (by norm_num),
        drop_set_out (by norm_num), drop_set_out (by norm_num)]
    show parseFields (slice s4 0 8) (slice s4 9 13) (slice s4 14 18)
      (slice s4 19 23) (s4.drop 24) =
      parseFields (slice s 0 8) (slice s 9 13) (slice s 14 18)
        (slice s 19 23) (s.drop 24)
    rw [e1, e2, e3, e4, e5]

theorem claim_C6_amended_witness :
    Uuid.from_str (91 :: (zeroHyph ++ [93])) = Uuid.from_str zeroHyph ∧
    Uuid.from_str
      ((((zeroHyph.set 8 95).set 13 95).set 18 95).set 23 95) =
      Uuid.from_str zeroHyph :=
  ⟨claim_C6_amended.1 91 93 zeroHyph (by decide) (by decide) (by decide)
    (by decide),
   claim_C6_amended.2.2 zeroHyph 95 95 95 95 (by decide) (by decide)
    (by decide) (by decide) (by decide) (by decide)⟩

end Nuuid
